import Mathlib

/-!
Shallow embedding of the decoding and normalization layer of the getifs
library (Linux netlink backend in src/linux/netlink.rs, BSD routing-socket
backend in src/bsd_like.rs and src/bsd_like/rt_generic.rs, rt_net.rs, and
the shared helpers in src/lib.rs), together with theorems settling the
frozen claims about it.

Conventions of the embedding:
* A byte buffer is a `List Nat` of byte values; multi-byte fields are read
  in little-endian order (the native order of the platforms the crate
  targets in these code paths).
* Machine integers are `Nat`; wrap-around does not occur on any path the
  claims touch, widths are noted where they matter (`U32_MAX`).
* Fallible loops return a `RunResult`: `ok` mirrors `Ok(..)`, `decodeErr`
  mirrors returning an `io::Error` of kind decode/protocol, `panicked`
  mirrors a Rust panic (out-of-bounds slice index), and `outOfFuel` is the
  fuel-exhaustion marker of the loop model: a loop whose model yields
  `outOfFuel` for every fuel value never terminates in the source.
* For the BSD backend the Apple target is modelled (`KERNAL_ALIGN = 4`,
  `AF_INET6 = 30`, Apple struct layouts); the claims at issue do not
  depend on the other BSD variants.
-/

namespace Getifs

/-- Outcome of running one of the source's decoding loops. -/
inductive RunResult (α : Type) where
  | ok (value : α)
  | decodeErr
  | panicked
  | outOfFuel
  deriving Repr, DecidableEq

/-- Raw byte buffers. -/
abbrev Bytes := List Nat

/-- Read one byte (out-of-range reads yield 0; every use is guarded the
same way the source guards its slice accesses, except where the source
itself fails to guard, which the models surface as `panicked`). -/
def readU8 (b : Bytes) (i : Nat) : Nat := b.getD i 0

/-- Little-endian 16-bit read, as `u16::from_ne_bytes` on the modelled
little-endian targets. -/
def readU16 (b : Bytes) (i : Nat) : Nat := readU8 b i + 256 * readU8 b (i + 1)

/-- Little-endian 32-bit read, as `u32::from_ne_bytes`. -/
def readU32 (b : Bytes) (i : Nat) : Nat := readU16 b i + 65536 * readU16 b (i + 2)

/-- `(len + 3) & !3`: round up to a 4-byte boundary (`nlm_align_of`,
`rta_align_of`). -/
def align4 (n : Nat) : Nat := (n + 3) / 4 * 4

/-- `(len + 7) & !7`: round up to an 8-byte boundary (used by the BSD
`rt_net` sockaddr walk). -/
def align8 (n : Nat) : Nat := (n + 7) / 8 * 8

/-- An IP address in wire order: `v4` carries 4 octets, `v6` 16. -/
inductive Ip where
  | v4 (octets : Bytes)
  | v6 (octets : Bytes)
  deriving Repr, DecidableEq

/-- `IfNet`-style record: interface index, address, prefix length. -/
structure NetRec where
  index : Nat
  addr : Ip
  prefLen : Nat
  deriving Repr, DecidableEq

/-- `IfAddr`-style record: interface index and address only. -/
structure AddrRec where
  index : Nat
  addr : Ip
  deriving Repr, DecidableEq

/-! ### Constants (values of the libc items the source imports) -/

def NLMSG_HDRLEN : Nat := 16
def NLMSG_DONE : Nat := 3
def NLMSG_ERROR : Nat := 2
def RTM_NEWLINK : Nat := 16
def RTM_NEWADDR_NL : Nat := 20
def RTM_NEWROUTE : Nat := 24
def IFLA_ADDRESS : Nat := 1
def IFLA_IFNAME : Nat := 3
def IFLA_MTU : Nat := 4
def IFA_ADDRESS : Nat := 1
def IFA_LOCAL : Nat := 2
def RTA_OIF : Nat := 4
def RTA_GATEWAY_NL : Nat := 5
def RTA_PRIORITY : Nat := 6
def ARPHRD_TUNNEL : Nat := 768
def ARPHRD_TUNNEL6 : Nat := 769
def ARPHRD_IPGRE : Nat := 778
def AF_UNSPEC : Nat := 0
def AF_INET : Nat := 2
def AF_INET6 : Nat := 10
def RTF_UP : Nat := 1
def RTF_GATEWAY : Nat := 2
def RTF_HOST : Nat := 4
def RT_TABLE_MAIN : Nat := 254
def U32_MAX : Nat := 4294967295

/-! ### Models of the `src/lib.rs` helpers -/

/-- `Ipv4Addr::is_loopback`: first octet 127. -/
def ipv4IsLoopback (o : Bytes) : Bool := readU8 o 0 == 127

/-- `Ipv4Addr::is_link_local`: 169.254.0.0/16. -/
def ipv4IsLinkLocal (o : Bytes) : Bool := readU8 o 0 == 169 && readU8 o 1 == 254

/-- `Ipv6Addr::is_loopback`: the address `::1`. -/
def ipv6IsLoopback (o : Bytes) : Bool :=
  o == [0, 0, 0, 0, 0, 0, 0, 0, 0, 0, 0, 0, 0, 0, 0, 1]

/-- `Ipv6AddrExt::is_unicast_link_local` (src/lib.rs):
`(segments()[0] & 0xffc0) == 0xfe80`. -/
def ipv6IsUnicastLinkLocal (o : Bytes) : Bool :=
  (readU8 o 0 * 256 + readU8 o 1) &&& 0xffc0 == 0xfe80

/-- `is_loopback` on the neutral address type. -/
def ipIsLoopback : Ip → Bool
  | .v4 o => ipv4IsLoopback o
  | .v6 o => ipv6IsLoopback o

/-- Link-local test matching the exclusions of `local_ip_filter`. -/
def ipIsLinkLocal : Ip → Bool
  | .v4 o => ipv4IsLinkLocal o
  | .v6 o => ipv6IsUnicastLinkLocal o

/-- `local_ip_filter` (src/lib.rs lines 941-947): excludes loopback and
link-local addresses of either family. -/
def localIpFilter (a : Ip) : Bool :=
  match a with
  | .v4 o => !(ipv4IsLoopback o || ipv4IsLinkLocal o)
  | .v6 o => !(ipv6IsLoopback o || ipv6IsUnicastLinkLocal o)

/-- `<IfNet as Net>::try_from` (src/lib.rs lines 843-858), which calls
`IfNet::with_prefix_len_assert`: the constructor asserts the prefix
length, panicking when it exceeds the family's bit width. -/
def ifNetTryFrom (index : Nat) (addr : Ip) (plen : Nat) : RunResult (Option NetRec) :=
  match addr with
  | .v4 _ => if plen ≤ 32 then .ok (some ⟨index, addr, plen⟩) else .panicked
  | .v6 _ => if plen ≤ 128 then .ok (some ⟨index, addr, plen⟩) else .panicked

/-- `Net::try_from_with_filter` (src/lib.rs lines 827-836): evaluate the
caller predicate first, then construct. -/
def ifNetTryFromWithFilter (f : Ip → Bool) (index : Nat) (addr : Ip) (plen : Nat) :
    RunResult (Option NetRec) :=
  if !f addr then .ok none else ifNetTryFrom index addr plen

/-! ### Linux netlink: `netlink_interface` (src/linux/netlink.rs 30-193) -/

/-- Decoded `Interface` under construction. -/
structure LinkIface where
  index : Nat
  flags : Nat
  mtu : Nat
  name : Bytes
  mac : Option Bytes
  deriving Repr, DecidableEq

/-- Zero-pad/truncate a link-layer address to `MAC_ADDRESS_SIZE = 6`
bytes: `data[..len].copy_from_slice(&vbuf[..len])` with
`len = vbuf.len().min(6)` over a zeroed 6-byte array. -/
def pad6 (v : Bytes) : Bytes := v.take 6 ++ List.replicate (6 - v.length) 0

/-- The `_` arm of the `IFLA_ADDRESS` match (netlink.rs 161-175): store
the padded/truncated value iff some byte of the original value is
nonzero; `none` means the attribute is not stored. -/
def linuxStoreMac (vbuf : Bytes) : Option Bytes :=
  if vbuf.any (fun b => b != 0) then some (pad6 vbuf) else none

/-- The attribute loop of the `RTM_NEWLINK` branch (netlink.rs 133-181).
`linkTy` is `info_hdr.ty`.  Faithful details: the value slice runs to the
aligned length (`&info_data[RtAttr::SIZE..alen]`), and the two tunnel
discard arms `continue` without advancing `info_data`. -/
def linkAttrWalk (fuel : Nat) (linkTy : Nat) (data : Bytes) (iface : LinkIface) :
    RunResult LinkIface :=
  match fuel with
  | 0 => .outOfFuel
  | fuel + 1 =>
    if data.length < 4 then .ok iface
    else
      let attrLen := readU16 data 0
      let attrTy := readU16 data 2
      if attrLen < 4 || data.length < attrLen then .decodeErr
      else
        let alen := align4 attrLen
        if data.length < alen then .panicked
        else
          let vbuf := (data.take alen).drop 4
          if attrTy == IFLA_MTU then
            if vbuf.length < 4 then .panicked
            else linkAttrWalk fuel linkTy (data.drop alen) { iface with mtu := readU32 vbuf 0 }
          else if attrTy == IFLA_IFNAME then
            linkAttrWalk fuel linkTy (data.drop alen)
              { iface with name := vbuf.takeWhile (fun b => b != 0) }
          else if attrTy == IFLA_ADDRESS then
            if vbuf.length == 4 && (linkTy == ARPHRD_IPGRE || linkTy == ARPHRD_TUNNEL) then
              linkAttrWalk fuel linkTy data iface
            else if vbuf.length == 16 && (linkTy == ARPHRD_TUNNEL6 || linkTy == 823) then
              linkAttrWalk fuel linkTy data iface
            else
              match linuxStoreMac vbuf with
              | some m => linkAttrWalk fuel linkTy (data.drop alen) { iface with mac := some m }
              | none => linkAttrWalk fuel linkTy (data.drop alen) iface
          else linkAttrWalk fuel linkTy (data.drop alen) iface

/-- The per-receive message loop of `netlink_interface` (netlink.rs
103-188).  `pid` is `lsa.nl_pid`; the request sequence number is the
fixed 1.  Returns the interfaces decoded from this buffer and whether
`NLMSG_DONE` was seen. -/
def netlinkInterfaceWalk (fuel : Nat) (pid : Nat) (ifi : Nat) (received : Bytes)
    (acc : List LinkIface) : RunResult (List LinkIface × Bool) :=
  match fuel with
  | 0 => .outOfFuel
  | fuel + 1 =>
    if received.length < NLMSG_HDRLEN then .ok (acc, false)
    else
      let hlen := readU32 received 0
      let hty := readU16 received 4
      let hseq := readU32 received 8
      let hpid := readU32 received 12
      let l := align4 hlen
      if hlen < NLMSG_HDRLEN || received.length < l then .decodeErr
      else if hseq != 1 || hpid != pid then .decodeErr
      else
        let msgBuf := received.drop NLMSG_HDRLEN
        if hty == NLMSG_DONE then .ok (acc, true)
        else if hty == NLMSG_ERROR then .decodeErr
        else if hty == RTM_NEWLINK then
          if msgBuf.length < 16 then .decodeErr
          else
            let infoTy := readU16 msgBuf 2
            let infoIndex := readU32 msgBuf 4
            let infoFlags := readU32 msgBuf 8
            if ifi != 0 && ifi != infoIndex then
              netlinkInterfaceWalk fuel pid ifi (received.drop l) acc
            else
              match linkAttrWalk fuel infoTy (msgBuf.drop 16)
                  ⟨infoIndex, infoFlags, 0, [], none⟩ with
              | .ok iface => netlinkInterfaceWalk fuel pid ifi (received.drop l) (acc ++ [iface])
              | .decodeErr => .decodeErr
              | .panicked => .panicked
              | .outOfFuel => .outOfFuel
        else netlinkInterfaceWalk fuel pid ifi (received.drop l) acc

/-! ### Linux netlink: `netlink_addr` (src/linux/netlink.rs 195-371) -/

/-- One collected `(RtAttr, vbuf)` pair of an `RTM_NEWADDR` entry. -/
structure AddrAttr where
  ty : Nat
  vbuf : Bytes
  deriving Repr, DecidableEq

/-- The attribute collection loop of the `RTM_NEWADDR` branch (netlink.rs
303-319).  An attribute is collected only when the interface filter `ifi`
is 0 or equals the entry's index. -/
def collectAddrAttrs (fuel : Nat) (ifi entryIndex : Nat) (data : Bytes)
    (acc : List AddrAttr) : RunResult (List AddrAttr) :=
  match fuel with
  | 0 => .outOfFuel
  | fuel + 1 =>
    if data.length < 4 then .ok acc
    else
      let attrLen := readU16 data 0
      let attrTy := readU16 data 2
      if attrLen < 4 || data.length < attrLen then .decodeErr
      else
        let alen := align4 attrLen
        if data.length < alen then .panicked
        else
          let vbuf := (data.take alen).drop 4
          let acc := if ifi == 0 || ifi == entryIndex then acc ++ [⟨attrTy, vbuf⟩] else acc
          collectAddrAttrs fuel ifi entryIndex (data.drop alen) acc

/-- `IFA_LOCAL` appears among the entry's collected attributes
(netlink.rs 321-326): the entry is point-to-point. -/
def hasLocalAttr (attrs : List AddrAttr) : Bool :=
  attrs.any (fun a => a.ty == IFA_LOCAL)

/-- The body of the second per-attribute loop (netlink.rs 328-360) for a
single attribute, point-to-point suppression excluded.  The `AF_INET` arm
slices `vbuf[..4]` before checking the attribute type and without a
length guard (panic on a short value); the `AF_INET6` arm is guarded by
`vbuf.len() >= 16`. -/
def addrFromAttr (family plen idx : Nat) (f : Ip → Bool) (a : AddrAttr) :
    RunResult (Option NetRec) :=
  if family == AF_INET then
    if a.vbuf.length < 4 then .panicked
    else if a.ty == IFA_ADDRESS || a.ty == IFA_LOCAL then
      ifNetTryFromWithFilter f idx (.v4 (a.vbuf.take 4)) plen
    else .ok none
  else if family == AF_INET6 && a.vbuf.length ≥ 16 then
    if a.ty == IFA_ADDRESS || a.ty == IFA_LOCAL then
      ifNetTryFromWithFilter f idx (.v6 (a.vbuf.take 16)) plen
    else .ok none
  else .ok none

/-- The second per-attribute loop with the point-to-point flag already
computed: when `p2p` is set, `IFA_ADDRESS` attributes are skipped. -/
def entryAddrsGo (family plen idx : Nat) (f : Ip → Bool) (p2p : Bool)
    (attrs : List AddrAttr) (acc : List NetRec) : RunResult (List NetRec) :=
  match attrs with
  | [] => .ok acc
  | a :: rest =>
    if p2p && a.ty == IFA_ADDRESS then entryAddrsGo family plen idx f p2p rest acc
    else
      match addrFromAttr family plen idx f a with
      | .ok (some r) => entryAddrsGo family plen idx f p2p rest (acc ++ [r])
      | .ok none => entryAddrsGo family plen idx f p2p rest acc
      | .decodeErr => .decodeErr
      | .panicked => .panicked
      | .outOfFuel => .outOfFuel

/-- Processing of one collected `RTM_NEWADDR` entry (netlink.rs 321-360):
compute the point-to-point flag from the entry's own attributes, then
fold the attributes into addresses. -/
def entryAddrs (family plen idx : Nat) (f : Ip → Bool) (attrs : List AddrAttr) :
    RunResult (List NetRec) :=
  entryAddrsGo family plen idx f (hasLocalAttr attrs) attrs []

/-- The per-receive message loop of `netlink_addr` (netlink.rs 274-366).
The `ifa_msghdr`-style header is read with unguarded indexing
(`msg_buf[0]` ..), hence `panicked` on a short payload. -/
def netlinkAddrWalk (fuel : Nat) (pid family ifi : Nat) (f : Ip → Bool)
    (received : Bytes) (acc : List NetRec) : RunResult (List NetRec × Bool) :=
  match fuel with
  | 0 => .outOfFuel
  | fuel + 1 =>
    if received.length < NLMSG_HDRLEN then .ok (acc, false)
    else
      let hlen := readU32 received 0
      let hty := readU16 received 4
      let hseq := readU32 received 8
      let hpid := readU32 received 12
      let l := align4 hlen
      if hlen < NLMSG_HDRLEN || received.length < l then .decodeErr
      else if hseq != 1 || hpid != pid then .decodeErr
      else
        let msgBuf := received.drop NLMSG_HDRLEN
        if hty == NLMSG_DONE then .ok (acc, true)
        else if hty == NLMSG_ERROR then .decodeErr
        else if hty == RTM_NEWADDR_NL then
          if msgBuf.length < 8 then .panicked
          else
            let entryFamily := readU8 msgBuf 0
            let plen := readU8 msgBuf 1
            let entryIndex := readU32 msgBuf 4
            match collectAddrAttrs fuel ifi entryIndex (msgBuf.drop 8) [] with
            | .ok attrs =>
              match entryAddrs entryFamily plen entryIndex f attrs with
              | .ok recs => netlinkAddrWalk fuel pid family ifi f (received.drop l) (acc ++ recs)
              | .decodeErr => .decodeErr
              | .panicked => .panicked
              | .outOfFuel => .outOfFuel
            | .decodeErr => .decodeErr
            | .panicked => .panicked
            | .outOfFuel => .outOfFuel
        else netlinkAddrWalk fuel pid family ifi f (received.drop l) acc

/-! ### Linux netlink: `netlink_best_local_addrs` (src/linux/netlink.rs 373-523) -/

/-- State of the best-default-route fold: `best_metric` (initially
`u32::MAX`) and `best_ifindex`. -/
structure BestState where
  metric : Nat
  ifidx : Option Nat
  deriving Repr, DecidableEq

/-- The gateway-detection predicate of the route loop (netlink.rs
453-462): old-kernel flags test, or destination prefix length 0 in the
main table. -/
def bestLocalConsider (dstLen table flags : Nat) : Bool :=
  (flags &&& (RTF_UP ||| RTF_GATEWAY) == RTF_UP ||| RTF_GATEWAY)
    || (dstLen == 0 && table == RT_TABLE_MAIN)

/-- The best-route update rule (netlink.rs 496-508): a lower metric wins,
a tie keeps the earlier candidate, and a route without a metric is
adopted (with metric 0) only while `best_metric` is still `u32::MAX`;
routes without an output interface never update the state. -/
def updateBest (st : BestState) (metric oif : Option Nat) : BestState :=
  match metric, oif with
  | some m, some o => if m < st.metric then ⟨m, some o⟩ else st
  | none, some o => if st.metric == U32_MAX then ⟨0, some o⟩ else st
  | _, none => st

/-- The route attribute scan of `netlink_best_local_addrs` (netlink.rs
473-494).  Faithful details: the attribute length is never validated, so
the value slice `&rtattr_buf[RtAttr::SIZE..attrlen]` and the advance
`&rtattr_buf[alen..]` can panic. -/
def routeAttrScan (fuel : Nat) (buf : Bytes) (metric oif : Option Nat) :
    RunResult (Option Nat × Option Nat) :=
  match fuel with
  | 0 => .outOfFuel
  | fuel + 1 =>
    if buf.length < 4 then .ok (metric, oif)
    else
      let attrLen := readU16 buf 0
      let attrTy := readU16 buf 2
      if attrLen < 4 || buf.length < attrLen then .panicked
      else
        let alen := align4 attrLen
        let data := (buf.take attrLen).drop 4
        let metric :=
          if attrTy == RTA_PRIORITY && data.length ≥ 4 then some (readU32 data 0) else metric
        let oif :=
          if attrTy == RTA_OIF && data.length ≥ 4 then some (readU32 data 0) else oif
        if buf.length < alen then .panicked
        else routeAttrScan fuel (buf.drop alen) metric oif

/-- The per-receive message loop of `netlink_best_local_addrs`
(netlink.rs 441-514).  Faithful details: unlike the other three receive
loops, this one performs NO validation of the message header: no
`nlmsg_len`/alignment check and no sequence/port-id check.  A message
with `nlmsg_len = 0` leaves the cursor in place (the loop never
terminates); an over-long message makes `&received[l..]` panic. -/
def bestLocalRouteWalk (fuel : Nat) (received : Bytes) (st : BestState) :
    RunResult (BestState × Bool) :=
  match fuel with
  | 0 => .outOfFuel
  | fuel + 1 =>
    if received.length < NLMSG_HDRLEN then .ok (st, false)
    else
      let hlen := readU32 received 0
      let hty := readU16 received 4
      let l := align4 hlen
      if hty == NLMSG_DONE then .ok (st, true)
      else if hty == NLMSG_ERROR then .decodeErr
      else if hty == RTM_NEWROUTE then
        let rtm := received.drop NLMSG_HDRLEN
        if rtm.length < 12 then .decodeErr
        else
          let dstLen := readU8 rtm 1
          let table := readU8 rtm 4
          let flags := readU32 rtm 8
          if !bestLocalConsider dstLen table flags then
            if received.length < l then .panicked
            else bestLocalRouteWalk fuel (received.drop l) st
          else
            match routeAttrScan fuel (rtm.drop 12) none none with
            | .ok (metric, oif) =>
              if received.length < l then .panicked
              else bestLocalRouteWalk fuel (received.drop l) (updateBest st metric oif)
            | .decodeErr => .decodeErr
            | .panicked => .panicked
            | .outOfFuel => .outOfFuel
      else
        if received.length < l then .panicked
        else bestLocalRouteWalk fuel (received.drop l) st

/-- The composition at the end of `netlink_best_local_addrs` (netlink.rs
517-522): with no chosen interface the result is `Ok` of an empty list,
otherwise addresses are fetched via `netlink_addr` scoped to the chosen
index with `local_ip_filter`.  `addrBuf` stands for the buffer the second
(address) dump yields. -/
def bestLocalAddrs (fuel : Nat) (pid family : Nat) (routeBuf addrBuf : Bytes) :
    RunResult (List NetRec) :=
  match bestLocalRouteWalk fuel routeBuf ⟨U32_MAX, none⟩ with
  | .ok (st, _) =>
    match st.ifidx with
    | none => .ok []
    | some idx =>
      match netlinkAddrWalk fuel pid family idx localIpFilter addrBuf [] with
      | .ok (recs, _) => .ok recs
      | .decodeErr => .decodeErr
      | .panicked => .panicked
      | .outOfFuel => .outOfFuel
  | .decodeErr => .decodeErr
  | .panicked => .panicked
  | .outOfFuel => .outOfFuel

/-! ### Linux netlink: `rt_generic_addrs` (src/linux/netlink.rs 525-701) -/

/-- The route attribute scan of `rt_generic_addrs` (netlink.rs 638-684):
collects addresses of the requested family found in attribute `rta` into
`tmp`, and tracks the last `RTA_OIF` value.  An invalid attribute length
breaks out of the scan (it is not an error here); the value slice is
`&rtattr_buf[RtAttr::SIZE..attrlen]` (unaligned end, in bounds), while
the advance `&rtattr_buf[alen..]` can panic.  The per-attribute address
collection (the `val if val == rta` match arm, netlink.rs 652-673) is
split out as `rtScanPush`. -/
def rtScanPush (family rtmFamily rta : Nat) (f : Ip → Bool) (attrTy : Nat) (data : Bytes)
    (tmp : List Ip) : List Ip :=
  if attrTy == rta then
    if (family == AF_INET || family == AF_UNSPEC) && rtmFamily == AF_INET
        && data.length ≥ 4 then
      if f (Ip.v4 (data.take 4)) then tmp ++ [Ip.v4 (data.take 4)] else tmp
    else if (family == AF_INET6 || family == AF_UNSPEC) && rtmFamily == AF_INET6
        && data.length ≥ 16 then
      if f (Ip.v6 (data.take 16)) then tmp ++ [Ip.v6 (data.take 16)] else tmp
    else tmp
  else tmp

def rtGenericAttrScan (fuel : Nat) (family rtmFamily rta : Nat) (f : Ip → Bool)
    (buf : Bytes) (tmp : List Ip) (curIfi : Nat) : RunResult (List Ip × Nat) :=
  match fuel with
  | 0 => .outOfFuel
  | fuel + 1 =>
    if buf.length < 4 then .ok (tmp, curIfi)
    else
      let attrLen := readU16 buf 0
      let attrTy := readU16 buf 2
      if attrLen < 4 || buf.length < attrLen then .ok (tmp, curIfi)
      else
        let alen := align4 attrLen
        let data := (buf.take attrLen).drop 4
        let tmp := rtScanPush family rtmFamily rta f attrTy data tmp
        let curIfi :=
          if attrTy != rta && attrTy == RTA_OIF && data.length ≥ 4 then readU32 data 0
          else curIfi
        if buf.length < alen then .panicked
        else rtGenericAttrScan fuel family rtmFamily rta f (buf.drop alen) tmp curIfi

/-- The per-receive message loop of `rt_generic_addrs` (netlink.rs
607-696), used for Linux gateway extraction with `rta = RTA_GATEWAY` and
`rtn = none`.  Header validation is present.  At the end of each route
message the collected addresses are appended (`extend`) without any
duplicate check; the `A::try_from` for the `IfAddr`-style result always
succeeds. -/
def rtGenericWalkNl (fuel : Nat) (pid family rta : Nat) (rtn : Option Nat)
    (f : Ip → Bool) (received : Bytes) (acc : List AddrRec) :
    RunResult (List AddrRec × Bool) :=
  match fuel with
  | 0 => .outOfFuel
  | fuel + 1 =>
    if received.length < NLMSG_HDRLEN then .ok (acc, false)
    else
      let hlen := readU32 received 0
      let hty := readU16 received 4
      let hseq := readU32 received 8
      let hpid := readU32 received 12
      let l := align4 hlen
      if hlen < NLMSG_HDRLEN || received.length < l then .decodeErr
      else if hseq != 1 || hpid != pid then .decodeErr
      else if hty == NLMSG_DONE then .ok (acc, true)
      else if hty == NLMSG_ERROR then .decodeErr
      else if hty == RTM_NEWROUTE then
        let rtm := received.drop NLMSG_HDRLEN
        if rtm.length < 12 then .decodeErr
        else
          let rtmFamily := readU8 rtm 0
          let rtmType := readU8 rtm 7
          if (match rtn with | some t => rtmType != t | none => false) then
            rtGenericWalkNl fuel pid family rta rtn f (received.drop l) acc
          else
            match rtGenericAttrScan fuel family rtmFamily rta f (rtm.drop 12) [] 0 with
            | .ok (tmp, curIfi) =>
              rtGenericWalkNl fuel pid family rta rtn f (received.drop l)
                (acc ++ tmp.map (fun a => ⟨curIfi, a⟩))
            | .decodeErr => .decodeErr
            | .panicked => .panicked
            | .outOfFuel => .outOfFuel
      else rtGenericWalkNl fuel pid family rta rtn f (received.drop l) acc

/-! ### BSD routing-socket backend (src/bsd_like.rs), Apple variant -/

def RTM_VERSION : Nat := 5
def RTM_IFINFO : Nat := 14
def RTM_NEWADDR_BSD : Nat := 12
def RTM_GET : Nat := 4
def AF_LINK : Nat := 18
def AF_INET6_BSD : Nat := 30
def RTF_IFSCOPE : Nat := 0x1000000
def RTA_DST_BSD : Nat := 1
def RTA_GATEWAY_BSD : Nat := 2
def RTAX_NETMASK : Nat := 2
def RTAX_IFA : Nat := 5
def IF_MSGHDR_SIZE : Nat := 96
def IFA_MSGHDR_SIZE : Nat := 20
def RT_MSGHDR_SIZE : Nat := 92
def SOCKADDR_SIZE : Nat := 16
def SOCKADDR_IN_SIZE : Nat := 16
def SOCKADDR_IN6_SIZE : Nat := 28

/-- `roundup` (bsd_like.rs 287-294) with the Apple `KERNAL_ALIGN = 4`:
0 rounds to the alignment, otherwise round up. -/
def roundupB (l : Nat) : Nat := if l == 0 then 4 else align4 l

/-- 4 wire-order bytes read at offset `j`. -/
def v4At (src : Bytes) (j : Nat) : Bytes :=
  [readU8 src j, readU8 src (j + 1), readU8 src (j + 2), readU8 src (j + 3)]

/-- 16 wire-order bytes read at offset `j`. -/
def v6At (src : Bytes) (j : Nat) : Bytes :=
  (List.range 16).map (fun k => readU8 src (j + k))

/-- UTF-8 validity of a byte sequence (`core::str::from_utf8` succeeds). -/
def utf8Cont (c : Nat) : Bool := 0x80 ≤ c && c ≤ 0xbf

def utf8Valid : Bytes → Bool
  | [] => true
  | b :: rest =>
    if b ≤ 0x7f then utf8Valid rest
    else if 0xc2 ≤ b && b ≤ 0xdf then
      match rest with
      | c :: r => utf8Cont c && utf8Valid r
      | [] => false
    else if b == 0xe0 then
      match rest with
      | c1 :: c2 :: r => (0xa0 ≤ c1 && c1 ≤ 0xbf) && utf8Cont c2 && utf8Valid r
      | _ => false
    else if (0xe1 ≤ b && b ≤ 0xec) || b == 0xee || b == 0xef then
      match rest with
      | c1 :: c2 :: r => utf8Cont c1 && utf8Cont c2 && utf8Valid r
      | _ => false
    else if b == 0xed then
      match rest with
      | c1 :: c2 :: r => (0x80 ≤ c1 && c1 ≤ 0x9f) && utf8Cont c2 && utf8Valid r
      | _ => false
    else if b == 0xf0 then
      match rest with
      | c1 :: c2 :: c3 :: r =>
        (0x90 ≤ c1 && c1 ≤ 0xbf) && utf8Cont c2 && utf8Cont c3 && utf8Valid r
      | _ => false
    else if 0xf1 ≤ b && b ≤ 0xf3 then
      match rest with
      | c1 :: c2 :: c3 :: r => utf8Cont c1 && utf8Cont c2 && utf8Cont c3 && utf8Valid r
      | _ => false
    else if b == 0xf4 then
      match rest with
      | c1 :: c2 :: c3 :: r =>
        (0x80 ≤ c1 && c1 ≤ 0x8f) && utf8Cont c2 && utf8Cont c3 && utf8Valid r
      | _ => false
    else false

/-- The link-layer address selection of `parse` (bsd_like.rs 210-214): a
hardware address is kept only when the address-length field is exactly
`MAC_ADDRESS_SIZE = 6`, and then verbatim; no padding or truncation. -/
def bsdMacOf (alen : Nat) (data : Bytes) : Option Bytes :=
  if alen == 6 then some (data.take 6) else none

/-- `parse` (bsd_like.rs 161-217): the trailing name/hardware-address
block of an `if_msghdr` record.  All-bits-one length fields mean "don't
care" and normalize to 0. -/
def bsdParseNameMac (b : Bytes) : RunResult (Bytes × Option Bytes) :=
  if b.length < 8 then .decodeErr
  else
    let b := b.drop 4
    let nlen := if readU8 b 1 == 0xff then 0 else readU8 b 1
    let alen := if readU8 b 2 == 0xff then 0 else readU8 b 2
    let slen := if readU8 b 3 == 0xff then 0 else readU8 b 3
    let l := 4 + nlen + alen + slen
    if b.length < l then .decodeErr
    else
      let data := b.drop 4
      if nlen > 0 && !utf8Valid (data.take nlen) then .decodeErr
      else .ok (data.take nlen, bsdMacOf alen (data.drop nlen))

/-- `interface_table` (bsd_like.rs 435-475): the record walk over a
`NET_RT_IFLIST` buffer.  Record length 0 and over-long records are
rejected up front (`invalid_message` / `message_too_short`). -/
def bsdInterfaceTableWalk (fuel : Nat) (src : Bytes) (acc : List LinkIface) :
    RunResult (List LinkIface) :=
  match fuel with
  | 0 => .outOfFuel
  | fuel + 1 =>
    if src.length ≤ 4 then .ok acc
    else
      let l := readU16 src 0
      if l == 0 then .decodeErr
      else if src.length < l then .decodeErr
      else if readU8 src 2 != RTM_VERSION then bsdInterfaceTableWalk fuel (src.drop l) acc
      else if readU8 src 3 == RTM_IFINFO then
        if l < IF_MSGHDR_SIZE then .panicked
        else
          match bsdParseNameMac ((src.take l).drop IF_MSGHDR_SIZE) with
          | .ok (name, mac) =>
            bsdInterfaceTableWalk fuel (src.drop l)
              (acc ++ [⟨readU16 src 12, readU32 src 8, readU32 src 24, name, mac⟩])
          | .decodeErr => .decodeErr
          | .panicked => .panicked
          | .outOfFuel => .outOfFuel
      else bsdInterfaceTableWalk fuel (src.drop l) acc

/-- `parse_inet_addr` (bsd_like.rs 296-342), Apple sizes: fixed-size C
socket address structures, with the KAME scope-id un-embedding for
link-local and interface/link-scope multicast IPv6 addresses. -/
def parseInetAddr (af : Nat) (b : Bytes) : RunResult (Nat × Ip) :=
  if af == AF_INET then
    if b.length < SOCKADDR_IN_SIZE then .decodeErr
    else .ok (SOCKADDR_IN_SIZE, .v4 (v4At b 4))
  else if af == AF_INET6_BSD then
    if b.length < SOCKADDR_IN6_SIZE then .decodeErr
    else
      let ip := v6At b 8
      let kame :=
        (readU8 ip 0 == 0xfe && readU8 ip 1 &&& 0xc0 == 0x80)
          || (readU8 ip 0 == 0xff
              && (readU8 ip 1 &&& 0x0f == 0x01 || readU8 ip 1 &&& 0x0f == 0x02))
      let ip :=
        if kame && readU8 ip 2 * 256 + readU8 ip 3 != 0 then
          ip.take 2 ++ [0, 0] ++ ip.drop 4
        else ip
      .ok (SOCKADDR_IN6_SIZE, .v6 ip)
  else .decodeErr

/-- `parse_kernel_inet_addr` (bsd_like.rs 219-285), Darwin variant: the
kernel's compact length-in-bytes prefix encoding, with the Darwin
re-rounding special case. -/
def parseKernelInetAddr (b : Bytes) : RunResult (Nat × Ip) :=
  let b0 := readU8 b 0
  let l := if b0 == 0 || b.length > roundupB b0 then roundupB b0 else b0
  if b.length < l then .decodeErr
  else if b0 == SOCKADDR_IN_SIZE then .ok (b0, .v4 (v4At b 4))
  else if b0 == SOCKADDR_IN6_SIZE then .ok (b0, .v6 (v6At b 8))
  else
    let remaining := l - 1
    if remaining < 4 then
      .ok (b0, .v4 ((b.drop 1).take remaining ++ List.replicate (4 - remaining) 0))
    else .ok (b0, .v4 (v4At b (l - 4)))

/-- `parse_addrs` (bsd_like.rs 344-405): extract the embedded socket
addresses selected by the presence bitmask, in fixed index order
(`RTAX_*` positions 0..7). -/
def parseAddrsGo (positions : List Nat) (addrs : Nat) (b : Bytes)
    (acc : List (Option Ip)) : RunResult (List (Option Ip)) :=
  match positions with
  | [] => .ok acc
  | i :: rest =>
    if b.length < 4 then .ok acc
    else if !addrs.testBit i then parseAddrsGo rest addrs b acc
    else if i ≤ 7 then
      let fam := readU8 b 1
      if fam == AF_LINK then
        let l := roundupB (readU8 b 0)
        if b.length < l then .decodeErr
        else parseAddrsGo rest addrs (b.drop l) acc
      else if fam == AF_INET || fam == AF_INET6_BSD then
        match parseInetAddr fam b with
        | .ok (_, addr) =>
          let l := roundupB (readU8 b 0)
          if b.length < l then .decodeErr
          else parseAddrsGo rest addrs (b.drop l) (acc.set i (some addr))
        | .decodeErr => .decodeErr
        | .panicked => .panicked
        | .outOfFuel => .outOfFuel
      else
        match parseKernelInetAddr b with
        | .ok (l, addr) =>
          let ll := roundupB l
          if b.length < ll then parseAddrsGo rest addrs (b.drop l) (acc.set i (some addr))
          else parseAddrsGo rest addrs (b.drop ll) (acc.set i (some addr))
        | .decodeErr => .decodeErr
        | .panicked => .panicked
        | .outOfFuel => .outOfFuel
    else
      let l := roundupB (readU8 b 0)
      if b.length < l then .decodeErr
      else parseAddrsGo rest addrs (b.drop l) acc

def parseAddrs (addrs : Nat) (b : Bytes) : RunResult (List (Option Ip)) :=
  parseAddrsGo [0, 1, 2, 3, 4, 5, 6, 7] addrs b (List.replicate 8 none)

/-- `ipnet::ip_mask_to_prefix`: a netmask maps to its prefix length when
its bits are contiguous leading ones, otherwise it is a prefix-length
error (`none`). -/
def octetBits (o : Nat) : List Bool := (List.range 8).map (fun j => o.testBit (7 - j))

def ipBits : Ip → List Bool
  | .v4 o => ((o.take 4).map octetBits).flatten
  | .v6 o => ((o.take 16).map octetBits).flatten

def maskToPref (mask : Ip) : Option Nat :=
  let bits := ipBits mask
  let p := (bits.takeWhile (fun x => x)).length
  if (bits.drop p).all (fun x => !x) then some p else none

/-- The per-record walk of `interface_addr_table` (bsd_like.rs 498-544).
Faithful details: unlike `interface_table`, NO validation of the record
length is performed: a record with `ifam_msglen = 0` leaves the cursor in
place (the loop never terminates), and a record longer than the
remaining buffer makes `&b[len..]` panic. -/
def bsdAddrTableWalk (fuel : Nat) (idx : Nat) (f : Ip → Bool) (b : Bytes)
    (acc : List NetRec) : RunResult (List NetRec) :=
  match fuel with
  | 0 => .outOfFuel
  | fuel + 1 =>
    if b.length ≤ IFA_MSGHDR_SIZE then .ok acc
    else
      let len := readU16 b 0
      if readU8 b 2 != RTM_VERSION || (readU16 b 12 != idx && idx != 0) then
        if b.length < len then .panicked
        else bsdAddrTableWalk fuel idx f (b.drop len) acc
      else if readU8 b 3 == RTM_NEWADDR_BSD then
        if len < IFA_MSGHDR_SIZE || b.length < len then .panicked
        else
          match parseAddrs (readU32 b 4) ((b.take len).drop IFA_MSGHDR_SIZE) with
          | .ok asList =>
            match asList.getD RTAX_IFA none, asList.getD RTAX_NETMASK none with
            | some ip, some maskIp =>
              match maskToPref maskIp with
              | none => .decodeErr
              | some p =>
                match ifNetTryFromWithFilter f (readU16 b 12) ip p with
                | .ok (some r) => bsdAddrTableWalk fuel idx f (b.drop len) (acc ++ [r])
                | .ok none => bsdAddrTableWalk fuel idx f (b.drop len) acc
                | .decodeErr => .decodeErr
                | .panicked => .panicked
                | .outOfFuel => .outOfFuel
            | _, _ => bsdAddrTableWalk fuel idx f (b.drop len) acc
          | .decodeErr => .decodeErr
          | .panicked => .panicked
          | .outOfFuel => .outOfFuel
      else
        if b.length < len then .panicked
        else bsdAddrTableWalk fuel idx f (b.drop len) acc

/-! ### BSD route dumps (src/bsd_like/rt_generic.rs, src/bsd_like/rt_net.rs) -/

/-- `is_ipv6_unspecified`.  Modelled from the spec: the helper is
referenced by src/bsd_like/rt_generic.rs but its definition is not among
the provided sources; per the spec a zero-valued gateway address
(`0.0.0.0` or `::`) is not a real gateway, so the helper holds exactly on
the all-zero 16-byte value. -/
def isIpv6Unspecified (o : Bytes) : Bool := o.all (fun b => b == 0)

/-- `if !results.contains(&addr) { results.push(addr) }`. -/
def dedupPush (l : List AddrRec) (a : AddrRec) : List AddrRec :=
  if a ∈ l then l else l ++ [a]

/-- `A::try_from_with_filter(index, addr, f)` for the `IfAddr`-style
result used by the route dumps (src/lib.rs 750-770): predicate first,
then an always-successful construction. -/
def ifAddrTryFromWithFilter (f : Ip → Bool) (idx : Nat) (addr : Ip) : Option AddrRec :=
  if f addr then some ⟨idx, addr⟩ else none

/-- One socket-address step of the `rt_generic_addrs_in` walk
(rt_generic.rs 61-104), at bit position `i` and buffer offset `off`.
Reads beyond the buffer (undefined behaviour in the source's raw pointer
walk) are modelled as zero bytes. -/
def bsdSaGatewayStep (family rta : Nat) (f : Ip → Bool) (src : Bytes) (rtmIndex : Nat)
    (i off : Nat) (results : List AddrRec) : Nat × List AddrRec :=
  let saLen := readU8 src off
  let saFam := readU8 src (off + 1)
  let results :=
    if (family == AF_INET || family == AF_UNSPEC) && saFam == AF_INET && i == rta then
      let o := v4At src (off + 4)
      if o.any (fun b => b != 0) then
        match ifAddrTryFromWithFilter f rtmIndex (.v4 o) with
        | some r => dedupPush results r
        | none => results
      else results
    else if (family == AF_INET6_BSD || family == AF_UNSPEC) && saFam == AF_INET6_BSD
        && i == rta then
      let o := v6At src (off + 8)
      if !isIpv6Unspecified o then
        match ifAddrTryFromWithFilter f rtmIndex (.v6 o) with
        | some r => dedupPush results r
        | none => results
      else results
    else results
  let saLenEff := if saLen == 0 then SOCKADDR_SIZE else saLen
  (off + roundupB saLenEff, results)

/-- The socket-address loop of `rt_generic_addrs_in` (rt_generic.rs
59-104): walk set bits of `rtm_addrs` low-to-high, consuming one embedded
socket address per set bit.  `count` is a structural bound on the number
of halvings of `addrs`; the wrapper below passes `count = addrs`, which
always suffices (`addrs / 2 < addrs` for `addrs > 0`), so the `count = 0,
addrs > 0` fallthrough is unreachable from the wrapper. -/
def bsdSaGatewayWalkGo (family rta : Nat) (f : Ip → Bool) (src : Bytes) (rtmIndex : Nat) :
    Nat → Nat → Nat → Nat → List AddrRec → List AddrRec
  | 0, _, _, _, results => results
  | count + 1, i, addrs, off, results =>
    if addrs == 0 then results
    else
      let step :=
        if addrs % 2 == 1 then bsdSaGatewayStep family rta f src rtmIndex i off results
        else (off, results)
      bsdSaGatewayWalkGo family rta f src rtmIndex count (i + 1) (addrs / 2) step.1 step.2

def bsdSaGatewayWalk (family rta : Nat) (f : Ip → Bool) (src : Bytes) (rtmIndex : Nat)
    (i : Nat) (addrs : Nat) (off : Nat) (results : List AddrRec) : List AddrRec :=
  bsdSaGatewayWalkGo family rta f src rtmIndex addrs i addrs off results

/-- The record walk of `rt_generic_addrs_in` (rt_generic.rs 16-111),
used for BSD gateway extraction with `rtf = RTF_GATEWAY`,
`rta = RTA_GATEWAY` (position 2).  Record-length validation is present;
a record is skipped when its flags contain neither `RTF_UP` nor `rtf`. -/
def rtGenericWalkBsd (fuel : Nat) (family rtf rta : Nat) (f : Ip → Bool) (src : Bytes)
    (results : List AddrRec) : RunResult (List AddrRec) :=
  match fuel with
  | 0 => .outOfFuel
  | fuel + 1 =>
    if src.length ≤ 4 then .ok results
    else
      let l := readU16 src 0
      if l == 0 then .decodeErr
      else if src.length < l then .decodeErr
      else if readU8 src 2 != RTM_VERSION then rtGenericWalkBsd fuel family rtf rta f (src.drop l) results
      else if readU8 src 3 != RTM_GET then rtGenericWalkBsd fuel family rtf rta f (src.drop l) results
      else
        let flags := readU32 src 8
        if flags &&& (RTF_UP ||| rtf) == 0 then
          rtGenericWalkBsd fuel family rtf rta f (src.drop l) results
        else
          let results := bsdSaGatewayWalk family rta f src (readU16 src 4) 1
            (readU32 src 12) RT_MSGHDR_SIZE results
          rtGenericWalkBsd fuel family rtf rta f (src.drop l) results

/-- `is_network_route` (rt_net.rs 143-169): host routes excluded; IPv4
candidates must not be broadcast or unspecified and must end in a zero
octet; IPv6 candidates must have their last 8 bytes zero. -/
def isNetworkRoute (addr : Ip) (rtmFlags : Nat) : Bool :=
  if rtmFlags &&& RTF_HOST != 0 then false
  else
    match addr with
    | .v4 o =>
      !(o == [255, 255, 255, 255] || readU8 o 3 != 0 || o == [0, 0, 0, 0])
    | .v6 o => (o.drop 8).all (fun b => b == 0)

/-- One socket-address step of the `rt_net_addrs_in` walk (rt_net.rs
90-133): only the `RTA_DST` position (1) contributes, guarded by the
zero-address pre-check and `is_network_route`; the advance aligns to 8
bytes here. -/
def bsdSaNetStep (family : Nat) (f : Ip → Bool) (src : Bytes) (rtmIndex rtmFlags : Nat)
    (i off : Nat) (results : List AddrRec) : Nat × List AddrRec :=
  let saLen := readU8 src off
  let saFam := readU8 src (off + 1)
  let results :=
    if (family == AF_INET || family == AF_UNSPEC) && saFam == AF_INET
        && i == RTA_DST_BSD then
      let o := v4At src (off + 4)
      if o.any (fun b => b != 0) then
        if isNetworkRoute (.v4 o) rtmFlags then
          match ifAddrTryFromWithFilter f rtmIndex (.v4 o) with
          | some r => dedupPush results r
          | none => results
        else results
      else results
    else if (family == AF_INET6_BSD || family == AF_UNSPEC) && saFam == AF_INET6_BSD
        && i == RTA_DST_BSD then
      let o := v6At src (off + 8)
      if !(o.all (fun b => b == 0)) then
        if isNetworkRoute (.v6 o) rtmFlags then
          match ifAddrTryFromWithFilter f rtmIndex (.v6 o) with
          | some r => dedupPush results r
          | none => results
        else results
      else results
    else results
  let saLenEff := if saLen == 0 then SOCKADDR_SIZE else saLen
  (off + align8 saLenEff, results)

/-- The socket-address loop of `rt_net_addrs_in` (rt_net.rs 86-136),
with the same structural `count` bound as the gateway walk. -/
def bsdSaNetWalkGo (family : Nat) (f : Ip → Bool) (src : Bytes) (rtmIndex rtmFlags : Nat) :
    Nat → Nat → Nat → Nat → List AddrRec → List AddrRec
  | 0, _, _, _, results => results
  | count + 1, i, addrs, off, results =>
    if addrs == 0 then results
    else
      let step :=
        if addrs % 2 == 1 then bsdSaNetStep family f src rtmIndex rtmFlags i off results
        else (off, results)
      bsdSaNetWalkGo family f src rtmIndex rtmFlags count (i + 1) (addrs / 2) step.1 step.2

def bsdSaNetWalk (family : Nat) (f : Ip → Bool) (src : Bytes) (rtmIndex rtmFlags : Nat)
    (i : Nat) (addrs : Nat) (off : Nat) (results : List AddrRec) : List AddrRec :=
  bsdSaNetWalkGo family f src rtmIndex rtmFlags addrs i addrs off results

/-- The `rt_net` per-record route guard (rt_net.rs 77-84): only `UP`
routes that are neither host routes nor interface-scoped routes are
considered. -/
def rtNetConsider (flags : Nat) : Bool :=
  !(flags &&& RTF_UP == 0) && flags &&& RTF_HOST == 0 && flags &&& RTF_IFSCOPE == 0

/-- The record walk of `rt_net_addrs_in` (rt_net.rs 49-141): network
route extraction over a `NET_RT_DUMP` buffer. -/
def rtNetWalk (fuel : Nat) (family : Nat) (f : Ip → Bool) (src : Bytes)
    (results : List AddrRec) : RunResult (List AddrRec) :=
  match fuel with
  | 0 => .outOfFuel
  | fuel + 1 =>
    if src.length ≤ 4 then .ok results
    else
      let l := readU16 src 0
      if l == 0 then .decodeErr
      else if src.length < l then .decodeErr
      else if readU8 src 2 != RTM_VERSION then rtNetWalk fuel family f (src.drop l) results
      else if readU8 src 3 != RTM_GET then rtNetWalk fuel family f (src.drop l) results
      else
        let flags := readU32 src 8
        if !rtNetConsider flags then rtNetWalk fuel family f (src.drop l) results
        else
          let results := bsdSaNetWalk family f src (readU16 src 4) flags 1
            (readU32 src 12) RT_MSGHDR_SIZE results
          rtNetWalk fuel family f (src.drop l) results

/-! ### Concrete inputs used to settle the claims -/

/-- A 20-byte receive buffer whose single message has `nlmsg_len = 0`
(type 0, sequence 0, port id 0 — all fields zero). -/
def nlZeroLenMsg : Bytes := List.replicate 20 0

/-- A 20-byte receive buffer with a well-formed length (`nlmsg_len = 20`)
but sequence number 2 instead of the fixed request sequence 1. -/
def nlSeqMismatchMsg : Bytes :=
  [20, 0, 0, 0, 0, 0, 0, 0, 2, 0, 0, 0, 0, 0, 0, 0, 0, 0, 0, 0]

/-- An `IFLA_ADDRESS` attribute of length 8 (4 header bytes + a 4-byte
value), as a GRE tunnel link carries for its local endpoint. -/
def greAttrData : Bytes := [8, 0, 1, 0, 10, 0, 0, 1]

/-- The interface under construction when `netlink_interface` reaches the
attribute loop of the GRE `NEWLINK` message below. -/
def greIface : LinkIface := ⟨5, 1, 0, [], none⟩

/-- A full receive buffer holding one `RTM_NEWLINK` message for a link of
type `ARPHRD_IPGRE` (778) whose only attribute is the 4-byte
`IFLA_ADDRESS` above: header (len 40, type 16, seq 1, pid 0), ifinfomsg
(type 778, index 5, flags 1), one attribute. -/
def greLinkMsg : Bytes :=
  [40, 0, 0, 0, 16, 0, 0, 0, 1, 0, 0, 0, 0, 0, 0, 0] ++
    [0, 0, 10, 3, 5, 0, 0, 0, 1, 0, 0, 0, 0, 0, 0, 0] ++ greAttrData

/-- A receive buffer holding one `RTM_NEWADDR` message (family
`AF_INET`, prefix length 24, index 1) whose only attribute is an
`IFA_ADDRESS` of length 4 — a header-only attribute with an empty
value. -/
def addrTruncV4Msg : Bytes :=
  [28, 0, 0, 0, 20, 0, 0, 0, 1, 0, 0, 0, 0, 0, 0, 0] ++
    [2, 24, 0, 0, 1, 0, 0, 0] ++ [4, 0, 1, 0]

/-- A receive buffer holding one `RTM_NEWADDR` message (family
`AF_INET`, prefix length 200, index 1) with a well-formed 4-byte
`IFA_ADDRESS` value: the prefix length is out of range for IPv4. -/
def addrBadPrefixMsg : Bytes :=
  [32, 0, 0, 0, 20, 0, 0, 0, 1, 0, 0, 0, 0, 0, 0, 0] ++
    [2, 200, 0, 0, 1, 0, 0, 0] ++ [8, 0, 1, 0, 10, 0, 0, 1]

/-- A receive buffer holding one `RTM_NEWADDR` message (family
`AF_INET6`) whose only attribute is a header-only `IFA_ADDRESS` with an
empty value: the `AF_INET6` arm is guarded by `vbuf.len() >= 16`. -/
def addrTruncV6Msg : Bytes :=
  [28, 0, 0, 0, 20, 0, 0, 0, 1, 0, 0, 0, 0, 0, 0, 0] ++
    [10, 64, 0, 0, 1, 0, 0, 0] ++ [4, 0, 1, 0]

/-- A 24-byte BSD routing-socket buffer whose first record has length
field 0 (and version byte 99, not `RTM_VERSION`). -/
def bsdZeroLenBuf : Bytes := [0, 0, 99, 0] ++ List.replicate 20 0

/-- A 24-byte BSD routing-socket buffer whose first record claims length
1000, far beyond the remaining buffer. -/
def bsdOverLenBuf : Bytes := [232, 3, 99, 0] ++ List.replicate 20 0

/-! ### Shared helper lemmas -/

/-- The GRE discard arm of the link attribute loop never advances the
cursor: on `greAttrData` the state repeats, so no fuel suffices. -/
lemma linkAttrWalk_gre_diverges :
    ∀ fuel, linkAttrWalk fuel ARPHRD_IPGRE greAttrData greIface = .outOfFuel := by
  intro fuel
  induction fuel with
  | zero => rfl
  | succ n ih => exact ih

/-- C1: in the interface-dump, address-dump and gateway-route-dump
receive loops a message with a zero/short length or a mismatched
sequence number is rejected with a decode error, but the
best-local-address route dump walk performs none of these checks: on the
zero-length message it never terminates, and it accepts the
mismatched-sequence message as a normal message. -/
theorem c1_receive_loop_validation :
    netlinkInterfaceWalk 5 0 0 nlZeroLenMsg [] = .decodeErr ∧
      netlinkAddrWalk 5 0 AF_INET 0 localIpFilter nlZeroLenMsg [] = .decodeErr ∧
      rtGenericWalkNl 5 0 AF_INET RTA_GATEWAY_NL none (fun _ => true) nlZeroLenMsg []
        = .decodeErr ∧
      netlinkInterfaceWalk 5 0 0 nlSeqMismatchMsg [] = .decodeErr ∧
      (∀ fuel, bestLocalRouteWalk fuel nlZeroLenMsg ⟨U32_MAX, none⟩ = .outOfFuel) ∧
      bestLocalRouteWalk 5 nlSeqMismatchMsg ⟨U32_MAX, none⟩ = .ok (⟨U32_MAX, none⟩, false) := by
  refine ⟨by decide, by decide, by decide, by decide, ?_, by decide⟩
  intro fuel
  induction fuel with
  | zero => rfl
  | succ n ih => exact ih

/-- C3: on a `NEWLINK` message for an `ARPHRD_IPGRE` link carrying a
4-byte hardware-address attribute, the discard arm executes `continue`
without advancing the attribute cursor, so the attribute loop — and with
it `netlink_interface` — never terminates instead of discarding the
attribute and yielding the interface. -/
theorem c3_tunnel_discard_loops_forever :
    (∀ fuel, linkAttrWalk fuel ARPHRD_IPGRE greAttrData greIface = .outOfFuel) ∧
      (∀ fuel, netlinkInterfaceWalk fuel 0 0 greLinkMsg [] = .outOfFuel) := by
  refine ⟨linkAttrWalk_gre_diverges, ?_⟩
  intro fuel
  match fuel with
  | 0 => rfl
  | n + 1 =>
    have h := linkAttrWalk_gre_diverges n
    simp only [netlinkInterfaceWalk, greLinkMsg, greAttrData]
    norm_num [readU32, readU16, readU8, align4, NLMSG_HDRLEN, NLMSG_DONE, NLMSG_ERROR,
      RTM_NEWLINK]
    rw [show linkAttrWalk n 778 [8, 0, 1, 0, 10, 0, 0, 1]
        { index := 5, flags := 1, mtu := 0, name := [], mac := none } = RunResult.outOfFuel from h]

/-- C2: decoding is not total on malformed input: the `AF_INET` branch of
the Linux address decoder slices `vbuf[..4]` without a length guard, so
a `NEWADDR` entry with a value-less `IFA_ADDRESS` attribute panics
instead of returning a decode error; an out-of-range prefix length also
panics via `with_prefix_len_assert`; the guarded `AF_INET6` branch, by
contrast, decodes the analogous truncated attribute without failing. -/
theorem c2_af_inet_branch_panics :
    netlinkAddrWalk 5 0 AF_INET 0 (fun _ => true) addrTruncV4Msg [] = .panicked ∧
      netlinkAddrWalk 5 0 AF_INET 0 (fun _ => true) addrBadPrefixMsg [] = .panicked ∧
      netlinkAddrWalk 5 0 AF_INET6 0 (fun _ => true) addrTruncV6Msg [] = .ok ([], false) := by
  exact ⟨by decide, by decide, by decide⟩

/-- C4: the BSD `interface_table` walk and both route-dump walks reject a
record with length field 0 (and an over-long record) as a decode error,
but the `interface_addr_table` walk performs no such validation: on the
zero-length record it never terminates, and on the over-long record it
panics. -/
theorem c4_bsd_record_length_validation :
    (∀ fuel, bsdAddrTableWalk fuel 0 (fun _ => true) bsdZeroLenBuf [] = .outOfFuel) ∧
      bsdAddrTableWalk 5 0 (fun _ => true) bsdOverLenBuf [] = .panicked ∧
      bsdInterfaceTableWalk 5 bsdZeroLenBuf [] = .decodeErr ∧
      bsdInterfaceTableWalk 5 bsdOverLenBuf [] = .decodeErr ∧
      rtGenericWalkBsd 5 AF_INET RTF_GATEWAY RTA_GATEWAY_BSD (fun _ => true) bsdZeroLenBuf []
        = .decodeErr ∧
      rtGenericWalkBsd 5 AF_INET RTF_GATEWAY RTA_GATEWAY_BSD (fun _ => true) bsdOverLenBuf []
        = .decodeErr ∧
      rtNetWalk 5 AF_INET (fun _ => true) bsdZeroLenBuf [] = .decodeErr ∧
      rtNetWalk 5 AF_INET (fun _ => true) bsdOverLenBuf [] = .decodeErr := by
  refine ⟨?_, by decide, by decide, by decide, by decide, by decide, by decide, by decide⟩
  intro fuel
  induction fuel with
  | zero => rfl
  | succ n ih => exact ih

/-- A route-dump buffer with one `RTM_NEWROUTE` message: flags 0 (UP
clear), destination prefix length 0, table `RT_TABLE_MAIN`, no
destination attribute at all, `RTA_OIF = 7`, `RTA_PRIORITY = 10`. -/
def c5RouteMsg : Bytes :=
  [44, 0, 0, 0, 24, 0, 0, 0, 1, 0, 0, 0, 0, 0, 0, 0] ++
    [2, 0, 0, 0, 254, 0, 0, 1, 0, 0, 0, 0] ++
    [8, 0, 4, 0, 7, 0, 0, 0] ++ [8, 0, 6, 0, 10, 0, 0, 0]

/-- C5 counterexample: a route whose `RTF_UP` flag is clear and whose
message carries no destination address attribute is nevertheless
considered by the best-local-address fold (because its destination
prefix length is 0 and its table is the main table) and determines the
chosen interface — refuting "considers exactly the UP routes whose
destination is the unspecified address". -/
theorem c5_counterexample_non_up_route_considered :
    bestLocalRouteWalk 5 c5RouteMsg ⟨U32_MAX, none⟩ = .ok (⟨10, some 7⟩, false) ∧
      readU32 (c5RouteMsg.drop NLMSG_HDRLEN) 8 &&& RTF_UP = 0 := by
  exact ⟨by decide, by decide⟩

/-- C5 (amended): the best-local-address query considers exactly the
routes that either carry both `RTF_UP` and `RTF_GATEWAY`, or have
destination prefix length 0 in the main table; among considered routes
with an output interface, the lowest metric wins, a tie keeps the
first-seen candidate, a metric-less route is adopted only while the best
metric is still `u32::MAX`, and a route without an output interface
never updates the choice; with no chosen route the query returns an
empty result. -/
theorem c5_best_local_selection :
    (∀ d t fl, bestLocalConsider d t fl = true ↔
        (fl &&& (RTF_UP ||| RTF_GATEWAY) = RTF_UP ||| RTF_GATEWAY
          ∨ (d = 0 ∧ t = RT_TABLE_MAIN))) ∧
      (∀ st m o, m < st.metric → updateBest st (some m) (some o) = ⟨m, some o⟩) ∧
      (∀ st m o, st.metric ≤ m → updateBest st (some m) (some o) = st) ∧
      (∀ st o, st.metric = U32_MAX → updateBest st none (some o) = ⟨0, some o⟩) ∧
      (∀ st o, st.metric ≠ U32_MAX → updateBest st none (some o) = st) ∧
      (∀ st m, updateBest st m none = st) ∧
      (∀ fuel pid family routeBuf addrBuf st d,
        bestLocalRouteWalk fuel routeBuf ⟨U32_MAX, none⟩ = .ok (st, d) → st.ifidx = none →
        bestLocalAddrs fuel pid family routeBuf addrBuf = .ok []) := by
  refine ⟨?_, ?_, ?_, ?_, ?_, ?_, ?_⟩
  · intro d t fl
    simp [bestLocalConsider, Bool.or_eq_true, Bool.and_eq_true, beq_iff_eq]
  · intro st m o h
    simp [updateBest, h]
  · intro st m o h
    simp [updateBest, Nat.not_lt.mpr h]
  · intro st o h
    simp [updateBest, h]
  · intro st o h
    simp [updateBest, h]
  · intro st m
    cases m <;> rfl
  · intro fuel pid family routeBuf addrBuf st d hwalk hnone
    simp [bestLocalAddrs, hwalk, hnone]

/-- C5 witness: the amended selection rules evaluated at concrete
inputs. -/
theorem c5_best_local_selection_witness :
    bestLocalConsider 0 254 0 = true ∧
      updateBest ⟨U32_MAX, none⟩ (some 10) (some 7) = ⟨10, some 7⟩ ∧
      updateBest ⟨10, some 7⟩ (some 10) (some 9) = ⟨10, some 7⟩ ∧
      updateBest ⟨10, some 7⟩ none (some 9) = ⟨10, some 7⟩ ∧
      bestLocalAddrs 5 0 AF_INET [] [] = .ok [] := by
  refine ⟨(c5_best_local_selection.1 0 254 0).mpr (Or.inr ⟨rfl, rfl⟩),
    c5_best_local_selection.2.1 _ 10 7 (by decide),
    c5_best_local_selection.2.2.1 _ 10 9 (by decide),
    c5_best_local_selection.2.2.2.2.1 _ 9 (by decide),
    c5_best_local_selection.2.2.2.2.2.2 5 0 AF_INET [] [] ⟨U32_MAX, none⟩ false (by decide) rfl⟩

/-- C7 counterexample: on Linux a 7-byte link-layer value whose only
nonzero byte is the seventh is stored as the all-zero 6-byte hardware
address (the claim requires an all-zero result to be reported absent),
and on BSD a 2-byte value is dropped entirely instead of being
zero-padded to 6 bytes. -/
theorem c7_counterexample_zero_mac_stored :
    linuxStoreMac [0, 0, 0, 0, 0, 0, 1] = some [0, 0, 0, 0, 0, 0] ∧
      bsdMacOf 2 [1, 2] = none := by
  exact ⟨by decide, by decide⟩

/-- C7 (amended): on the Linux backend values are zero-padded or
truncated to 6 bytes and the attribute is stored iff the original
(untruncated) value has a nonzero byte — so an all-zero original is
reported absent, but a longer value whose nonzero bytes lie beyond the
sixth is stored as the all-zero address; on the BSD backend no padding
or truncation happens: a hardware address is reported iff the
address-length field is exactly 6, and then verbatim (an all-zero 6-byte
value included). -/
theorem c7_mac_normalization :
    (∀ v, (pad6 v).length = 6) ∧
      (∀ v : Bytes, v.length ≤ 6 → pad6 v = v ++ List.replicate (6 - v.length) 0) ∧
      (∀ v : Bytes, 6 ≤ v.length → pad6 v = v.take 6) ∧
      (∀ v, v.any (fun b => b != 0) = false → linuxStoreMac v = none) ∧
      (∀ v, v.any (fun b => b != 0) = true → linuxStoreMac v = some (pad6 v)) ∧
      (∀ alen data, alen ≠ 6 → bsdMacOf alen data = none) ∧
      (∀ data : Bytes, bsdMacOf 6 data = some (data.take 6)) := by
  refine ⟨?_, ?_, ?_, ?_, ?_, ?_, ?_⟩
  · intro v
    simp [pad6]
    omega
  · intro v h
    simp [pad6, List.take_of_length_le h]
  · intro v h
    simp [pad6, Nat.sub_eq_zero_of_le h]
  · intro v h
    simp [linuxStoreMac, h]
  · intro v h
    simp [linuxStoreMac, h]
  · intro alen data h
    simp [bsdMacOf, h]
  · intro data
    rfl

/-- C7 witness: the amended normalization evaluated at concrete
values. -/
theorem c7_mac_normalization_witness :
    pad6 [1, 2] = [1, 2, 0, 0, 0, 0] ∧
      pad6 [1, 2, 3, 4, 5, 6, 7] = [1, 2, 3, 4, 5, 6] ∧
      linuxStoreMac [0, 0, 0, 0, 0, 0] = none ∧
      linuxStoreMac [1, 2] = some (pad6 [1, 2]) ∧
      bsdMacOf 4 [1, 2, 3, 4] = none ∧
      bsdMacOf 6 [0, 0, 0, 0, 0, 0] = some [0, 0, 0, 0, 0, 0] := by
  refine ⟨?_, ?_, ?_, ?_, ?_, ?_⟩
  · rw [c7_mac_normalization.2.1 [1, 2] (by norm_num)]
    decide
  · rw [c7_mac_normalization.2.2.1 [1, 2, 3, 4, 5, 6, 7] (by norm_num)]
    decide
  · exact c7_mac_normalization.2.2.2.1 [0, 0, 0, 0, 0, 0] (by decide)
  · exact c7_mac_normalization.2.2.2.2.1 [1, 2] (by decide)
  · exact c7_mac_normalization.2.2.2.2.2.1 4 [1, 2, 3, 4] (by decide)
  · rw [c7_mac_normalization.2.2.2.2.2.2 [0, 0, 0, 0, 0, 0]]
    decide

/-- The requested address family admits this address: the family-pair
condition of the Linux route attribute scan, projected to the address. -/
def famOk (family : Nat) : Ip → Bool
  | .v4 _ => family == AF_INET || family == AF_UNSPEC
  | .v6 _ => family == AF_INET6 || family == AF_UNSPEC

lemma mem_rtScanPush {family rtmFamily rta : Nat} {f : Ip → Bool} {attrTy : Nat}
    {data : Bytes} {tmp : List Ip} {a : Ip}
    (h : a ∈ rtScanPush family rtmFamily rta f attrTy data tmp) :
    a ∈ tmp ∨ (f a = true ∧ famOk family a = true) := by
  unfold rtScanPush at h
  split_ifs at h with h1 h2 h3 h4 h5
  · rcases List.mem_append.1 h with h | h
    · exact Or.inl h
    · simp only [List.mem_singleton] at h
      subst h
      simp only [Bool.and_eq_true, Bool.or_eq_true] at h2
      exact Or.inr ⟨h3, by simp only [famOk, Bool.or_eq_true]; exact h2.1.1⟩
  · exact Or.inl h
  · rcases List.mem_append.1 h with h | h
    · exact Or.inl h
    · simp only [List.mem_singleton] at h
      subst h
      simp only [Bool.and_eq_true, Bool.or_eq_true] at h4
      exact Or.inr ⟨h5, by simp only [famOk, Bool.or_eq_true]; exact h4.1.1⟩
  · exact Or.inl h
  · exact Or.inl h
  · exact Or.inl h

lemma rtGenericAttrScan_mem {family rtmFamily rta : Nat} {f : Ip → Bool} :
    ∀ fuel buf tmp curIfi out,
      rtGenericAttrScan fuel family rtmFamily rta f buf tmp curIfi = .ok out →
      ∀ a ∈ out.1, a ∈ tmp ∨ (f a = true ∧ famOk family a = true) := by
  intro fuel
  induction fuel with
  | zero => intro buf tmp curIfi out h; cases h
  | succ n ih =>
    intro buf tmp curIfi out h a ha
    simp only [rtGenericAttrScan] at h
    split at h
    · cases h; exact Or.inl ha
    · split at h
      · cases h; exact Or.inl ha
      · split at h
        · cases h
        · have := ih _ _ _ _ h a ha
          rcases this with hmem | hgood
          · rcases mem_rtScanPush hmem with hmem | hgood
            · exact Or.inl hmem
            · exact Or.inr hgood
          · exact Or.inr hgood

lemma rtGenericWalkNl_mem {pid family rta : Nat} {rtn : Option Nat} {f : Ip → Bool} :
    ∀ fuel received acc out,
      rtGenericWalkNl fuel pid family rta rtn f received acc = .ok out →
      ∀ x ∈ out.1, x ∈ acc ∨ (f x.addr = true ∧ famOk family x.addr = true) := by
  intro fuel
  induction fuel with
  | zero => intro received acc out h; cases h
  | succ n ih =>
    intro received acc out h x hx
    simp only [rtGenericWalkNl] at h
    split at h
    · cases h; exact Or.inl hx
    · split at h
      · cases h
      · split at h
        · cases h
        · split at h
          · cases h; exact Or.inl hx
          · split at h
            · cases h
            · split at h
              · split at h
                · cases h
                · split at h
                  · exact ih _ _ _ h x hx
                  · split at h
                    · rcases ih _ _ _ h x hx with hmem | hgood
                      · rcases List.mem_append.1 hmem with hacc | hnew
                        · exact Or.inl hacc
                        · rcases List.mem_map.1 hnew with ⟨a, hatmp, rfl⟩
                          rcases rtGenericAttrScan_mem _ _ _ _ _ (by assumption) a hatmp with
                            h0 | hgood
                          · cases h0
                          · exact Or.inr hgood
                      · exact Or.inr hgood
                    · cases h
                    · cases h
                    · cases h
              · exact ih _ _ _ h x hx

/-- A route-dump buffer with two identical `RTM_NEWROUTE` messages
(flags 0, family `AF_INET`), each carrying `RTA_GATEWAY = 10.0.0.1`. -/
def c8DupBuf : Bytes :=
  [36, 0, 0, 0, 24, 0, 0, 0, 1, 0, 0, 0, 0, 0, 0, 0] ++
    [2, 0, 0, 0, 0, 0, 0, 1, 0, 0, 0, 0] ++ [8, 0, 5, 0, 10, 0, 0, 1] ++
    ([36, 0, 0, 0, 24, 0, 0, 0, 1, 0, 0, 0, 0, 0, 0, 0] ++
      [2, 0, 0, 0, 0, 0, 0, 1, 0, 0, 0, 0] ++ [8, 0, 5, 0, 10, 0, 0, 1])

/-- A route-dump buffer with one `RTM_NEWROUTE` message carrying the
zero gateway `RTA_GATEWAY = 0.0.0.0`. -/
def c8ZeroBuf : Bytes :=
  [36, 0, 0, 0, 24, 0, 0, 0, 1, 0, 0, 0, 0, 0, 0, 0] ++
    [2, 0, 0, 0, 0, 0, 0, 1, 0, 0, 0, 0] ++ [8, 0, 5, 0, 0, 0, 0, 0]

/-- C8 counterexample: the Linux gateway extraction returns the same
gateway twice for two identical routes (no deduplication), returns the
zero gateway `0.0.0.0` (no zero skip), and does so although the routes'
`RTF_UP` flag is clear — refuting "identically on every backend:
UP-routes only, duplicates removed, zero gateways skipped". -/
theorem c8_counterexample_linux_duplicates :
    rtGenericWalkNl 5 0 AF_INET RTA_GATEWAY_NL none (fun _ => true) c8DupBuf []
        = .ok ([⟨0, .v4 [10, 0, 0, 1]⟩, ⟨0, .v4 [10, 0, 0, 1]⟩], false) ∧
      rtGenericWalkNl 5 0 AF_INET RTA_GATEWAY_NL none (fun _ => true) c8ZeroBuf []
        = .ok ([⟨0, .v4 [0, 0, 0, 0]⟩], false) ∧
      readU32 (c8DupBuf.drop NLMSG_HDRLEN) 8 &&& RTF_UP = 0 := by
  exact ⟨by decide, by decide, by decide⟩

/-- C8 (amended): gateway extraction differs between backends.  On Linux
it collects `RTA_GATEWAY` addresses of the requested family that pass
the caller filter — without examining route flags, without removing
duplicates and without skipping zero addresses (see the counterexample);
family restriction and filter soundness do hold.  On BSD, insertion
deduplicates, a record whose flags contain neither `RTF_UP` nor the
requested flag contributes nothing, and a zero-valued IPv4 gateway is
skipped. -/
theorem c8_gateway_extraction :
    (∀ fuel pid rta rtn f received res d,
        rtGenericWalkNl fuel pid AF_INET rta rtn f received [] = .ok (res, d) →
        ∀ x ∈ res, (∃ o, x.addr = Ip.v4 o) ∧ f x.addr = true) ∧
      (∀ (l : List AddrRec) a, a ∈ dedupPush l a) ∧
      (∀ (l : List AddrRec) a, a ∈ l → dedupPush l a = l) ∧
      (∀ (l : List AddrRec) a, l.Nodup → (dedupPush l a).Nodup) ∧
      (∀ family rta f src idx i off results,
        readU8 src (off + 1) = AF_INET → v4At src (off + 4) = [0, 0, 0, 0] →
        (bsdSaGatewayStep family rta f src idx i off results).2 = results) ∧
      (∀ fuel family rtf rta f src results,
        4 < src.length → readU16 src 0 ≠ 0 → readU16 src 0 ≤ src.length →
        readU8 src 2 = RTM_VERSION → readU8 src 3 = RTM_GET →
        readU32 src 8 &&& (RTF_UP ||| rtf) = 0 →
        rtGenericWalkBsd (fuel + 1) family rtf rta f src results
          = rtGenericWalkBsd fuel family rtf rta f (src.drop (readU16 src 0)) results) := by
  refine ⟨?_, ?_, ?_, ?_, ?_, ?_⟩
  · intro fuel pid rta rtn f received res d h x hx
    rcases rtGenericWalkNl_mem fuel received [] (res, d) h x hx with h0 | ⟨hf, hfam⟩
    · cases h0
    · refine ⟨?_, hf⟩
      cases haddr : x.addr with
      | v4 o => exact ⟨o, rfl⟩
      | v6 o => rw [haddr] at hfam; simp [famOk, AF_INET, AF_INET6, AF_UNSPEC] at hfam
  · intro l a
    simp [dedupPush]
    split_ifs with h
    · exact h
    · simp
  · intro l a h
    simp [dedupPush, h]
  · intro l a hl
    simp only [dedupPush]
    split_ifs with h
    · exact hl
    · simp [List.nodup_append, hl, h]
  · intro family rta f src idx i off results h1 h2
    simp only [bsdSaGatewayStep, h1, h2, AF_INET, AF_INET6_BSD]
    split_ifs with hc1 hc2 <;> simp_all
  · intro fuel family rtf rta f src results hlen hne hle hver hget hflags
    simp only [rtGenericWalkBsd]
    rw [if_neg (by omega), if_neg (by simp [hne]), if_neg (by omega),
      if_neg (by simp [hver]), if_neg (by simp [hget]), if_pos (by simp [hflags])]

/-- C8 witness: the amended extraction facts at concrete inputs. -/
theorem c8_gateway_extraction_witness :
    ((∃ o, (⟨0, Ip.v4 [10, 0, 0, 1]⟩ : AddrRec).addr = Ip.v4 o) ∧
        (fun _ => true) (⟨0, Ip.v4 [10, 0, 0, 1]⟩ : AddrRec).addr = true) ∧
      (⟨3, Ip.v4 [10, 0, 0, 1]⟩ : AddrRec) ∈ dedupPush [] ⟨3, Ip.v4 [10, 0, 0, 1]⟩ ∧
      dedupPush [⟨3, Ip.v4 [10, 0, 0, 1]⟩] ⟨3, Ip.v4 [10, 0, 0, 1]⟩
        = [⟨3, Ip.v4 [10, 0, 0, 1]⟩] ∧
      (bsdSaGatewayStep 2 2 (fun _ => true) [16, 2, 0, 0, 0, 0, 0, 0] 1 2 0 []).2 = [] ∧
      rtGenericWalkBsd 6 AF_INET RTF_GATEWAY RTA_GATEWAY_BSD (fun _ => true)
          [8, 0, 5, 4, 0, 0, 0, 0, 0, 0, 0, 0] []
        = rtGenericWalkBsd 5 AF_INET RTF_GATEWAY RTA_GATEWAY_BSD (fun _ => true)
          [0, 0, 0, 0] [] := by
  refine ⟨?_, ?_, ?_, ?_, ?_⟩
  · exact c8_gateway_extraction.1 5 0 RTA_GATEWAY_NL none (fun _ => true) c8DupBuf
      [⟨0, .v4 [10, 0, 0, 1]⟩, ⟨0, .v4 [10, 0, 0, 1]⟩] false (by decide)
      ⟨0, .v4 [10, 0, 0, 1]⟩ (by decide)
  · exact c8_gateway_extraction.2.1 [] ⟨3, Ip.v4 [10, 0, 0, 1]⟩
  · exact c8_gateway_extraction.2.2.1 [⟨3, Ip.v4 [10, 0, 0, 1]⟩] ⟨3, Ip.v4 [10, 0, 0, 1]⟩
      (by decide)
  · exact c8_gateway_extraction.2.2.2.2.1 2 2 (fun _ => true) [16, 2, 0, 0, 0, 0, 0, 0] 1 2 0 []
      (by decide) (by decide)
  · have := c8_gateway_extraction.2.2.2.2.2 5 AF_INET RTF_GATEWAY RTA_GATEWAY_BSD
      (fun _ => true) [8, 0, 5, 4, 0, 0, 0, 0, 0, 0, 0, 0] []
      (by decide) (by decide) (by decide) (by decide) (by decide) (by decide)
    simpa using this

lemma mem_dedupPush {l : List AddrRec} {a x : AddrRec} (h : x ∈ dedupPush l a) :
    x ∈ l ∨ x = a := by
  unfold dedupPush at h
  split_ifs at h with hc
  · exact Or.inl h
  · rcases List.mem_append.1 h with h | h
    · exact Or.inl h
    · exact Or.inr (List.mem_singleton.1 h)

lemma bsdSaNetStep_mem {family : Nat} {f : Ip → Bool} {src : Bytes}
    {idx fl i off : Nat} {results : List AddrRec} {x : AddrRec}
    (h : x ∈ (bsdSaNetStep family f src idx fl i off results).2) :
    x ∈ results ∨ isNetworkRoute x.addr fl = true := by
  simp only [bsdSaNetStep, ifAddrTryFromWithFilter] at h
  split_ifs at h with h1 h2 h3 h4 h5 h6 h7 h8
  all_goals first
    | exact Or.inl h
    | (rcases mem_dedupPush h with h | h
       · exact Or.inl h
       · subst h; simp only [] ; first
           | exact Or.inr h3
           | exact Or.inr h7)

lemma bsdSaNetWalkGo_mem {family : Nat} {f : Ip → Bool} {src : Bytes} {idx fl : Nat}
    {x : AddrRec} :
    ∀ count i addrs off results,
      x ∈ bsdSaNetWalkGo family f src idx fl count i addrs off results →
      x ∈ results ∨ isNetworkRoute x.addr fl = true := by
  intro count
  induction count with
  | zero => intro i addrs off results hx; exact Or.inl hx
  | succ n ih =>
    intro i addrs off results hx
    simp only [bsdSaNetWalkGo] at hx
    by_cases h0 : addrs == 0
    · rw [if_pos h0] at hx
      exact Or.inl hx
    · rw [if_neg h0] at hx
      rcases ih _ _ _ _ hx with hstep | hgood
      · by_cases hp : addrs % 2 == 1
        · simp only [hp, if_true] at hstep
          exact bsdSaNetStep_mem hstep
        · simp only [hp, if_false] at hstep
          exact Or.inl hstep
      · exact Or.inr hgood

lemma bsdSaNetWalk_mem {family : Nat} {f : Ip → Bool} {src : Bytes} {idx fl : Nat}
    {x : AddrRec} :
    ∀ addrs i off results, x ∈ bsdSaNetWalk family f src idx fl i addrs off results →
      x ∈ results ∨ isNetworkRoute x.addr fl = true := by
  intro addrs i off results hx
  exact bsdSaNetWalkGo_mem addrs i addrs off results hx

lemma rtNetWalk_mem {family : Nat} {f : Ip → Bool} :
    ∀ fuel src results out, rtNetWalk fuel family f src results = .ok out →
      ∀ x ∈ out, x ∈ results ∨
        ∃ fl, rtNetConsider fl = true ∧ isNetworkRoute x.addr fl = true := by
  intro fuel
  induction fuel with
  | zero => intro src results out h; cases h
  | succ n ih =>
    intro src results out h x hx
    simp only [rtNetWalk] at h
    split at h
    · cases h; exact Or.inl hx
    · split at h
      · cases h
      · split at h
        · cases h
        · split at h
          · exact ih _ _ _ h x hx
          · split at h
            · exact ih _ _ _ h x hx
            · split at h
              · exact ih _ _ _ h x hx
              · rename_i hguard
                rcases ih _ _ _ h x hx with hmem | hgood
                · rcases bsdSaNetWalk_mem _ _ _ _ hmem with hres | hnr
                  · exact Or.inl hres
                  · refine Or.inr ⟨readU32 src 8, ?_, hnr⟩
                    revert hguard
                    cases rtNetConsider (readU32 src 8) <;> simp
                · exact Or.inr hgood

/-- A `NET_RT_DUMP` buffer with one `RTM_GET` record: flags `RTF_UP`,
one `RTA_DST` socket address `10.0.1.0` on interface 7. -/
def c9NetBuf : Bytes :=
  [108, 0, 5, 4, 7, 0, 0, 0, 1, 0, 0, 0, 1, 0, 0, 0] ++ List.replicate 76 0 ++
    [16, 2, 0, 0, 10, 0, 1, 0] ++ List.replicate 8 0

/-- C9: every address returned by the BSD network-route extraction comes
from a route the walk considered — one with `RTF_UP` set and `RTF_HOST`
clear — and passed `is_network_route`, which forces the trailing bits to
zero: for IPv4 a zero last octet (and neither broadcast nor
unspecified), for IPv6 a zero tail of 8 bytes. -/
theorem c9_network_route_invariant :
    (∀ fuel family f src res, rtNetWalk fuel family f src [] = .ok res →
        ∀ x ∈ res, ∃ fl, rtNetConsider fl = true ∧ isNetworkRoute x.addr fl = true) ∧
      (∀ fl, rtNetConsider fl = true → fl &&& RTF_UP ≠ 0 ∧ fl &&& RTF_HOST = 0) ∧
      (∀ fl o, isNetworkRoute (Ip.v4 o) fl = true →
        readU8 o 3 = 0 ∧ o ≠ [255, 255, 255, 255] ∧ o ≠ [0, 0, 0, 0]) ∧
      (∀ fl o, isNetworkRoute (Ip.v6 o) fl = true → ∀ b ∈ o.drop 8, b = 0) := by
  refine ⟨?_, ?_, ?_, ?_⟩
  · intro fuel family f src res h x hx
    rcases rtNetWalk_mem fuel src [] res h x hx with h0 | hgood
    · cases h0
    · exact hgood
  · intro fl h
    simp only [rtNetConsider, Bool.and_eq_true, Bool.not_eq_true', beq_iff_eq,
      beq_eq_false_iff_ne, ne_eq] at h
    exact ⟨h.1.1, h.1.2⟩
  · intro fl o h
    simp only [isNetworkRoute] at h
    split_ifs at h with hh
    simp only [Bool.not_eq_true', Bool.or_eq_false_iff, beq_eq_false_iff_ne, ne_eq,
      bne_eq_false_iff_eq] at h
    exact ⟨h.1.2, h.1.1, h.2⟩
  · intro fl o h
    simp only [isNetworkRoute] at h
    split_ifs at h with hh
    simp only [List.all_eq_true, beq_iff_eq] at h
    exact h

/-- C9 witness: the invariant applied to a concrete one-route dump. -/
theorem c9_network_route_invariant_witness :
    (∃ fl, rtNetConsider fl = true
        ∧ isNetworkRoute (⟨7, Ip.v4 [10, 0, 1, 0]⟩ : AddrRec).addr fl = true) ∧
      (1 &&& RTF_UP ≠ 0 ∧ 1 &&& RTF_HOST = 0) ∧
      (readU8 [10, 0, 1, 0] 3 = 0 ∧ [10, 0, 1, 0] ≠ [255, 255, 255, 255]
        ∧ [10, 0, 1, 0] ≠ [0, 0, 0, 0]) := by
  refine ⟨?_, ?_, ?_⟩
  · exact c9_network_route_invariant.1 2 AF_INET (fun _ => true) c9NetBuf
      [⟨7, Ip.v4 [10, 0, 1, 0]⟩] (by decide) ⟨7, Ip.v4 [10, 0, 1, 0]⟩ (by decide)
  · exact c9_network_route_invariant.2.1 1 (by decide)
  · exact c9_network_route_invariant.2.2.1 1 [10, 0, 1, 0] (by decide)

lemma addrFromAttr_some {family plen idx : Nat} {f : Ip → Bool} {a : AddrAttr}
    {r : NetRec} (h : addrFromAttr family plen idx f a = .ok (some r)) :
    (a.ty = IFA_ADDRESS ∨ a.ty = IFA_LOCAL) ∧ f r.addr = true ∧ r.index = idx := by
  simp only [addrFromAttr, ifNetTryFromWithFilter, ifNetTryFrom] at h
  split_ifs at h with h1 h2 h3 h4 h5 h6 h7 h8 h9
  all_goals try cases h
  · exact ⟨by simpa using h3, by simpa using h4, rfl⟩
  · exact ⟨by simpa using h7, by simpa using h8, rfl⟩

lemma entryAddrsGo_no_local {family plen idx : Nat} {f : Ip → Bool} :
    ∀ attrs (acc res : List NetRec), (∀ a ∈ attrs, a.ty ≠ IFA_LOCAL) →
      entryAddrsGo family plen idx f true attrs acc = .ok res → res = acc := by
  intro attrs
  induction attrs with
  | nil => intro acc res _ h; cases h; rfl
  | cons a rest ih =>
    intro acc res hno h
    by_cases hA : (a.ty == IFA_ADDRESS) = true
    · simp only [entryAddrsGo, Bool.true_and, hA, if_true] at h
      exact ih acc res (fun b hb => hno b (List.mem_cons_of_mem a hb)) h
    · simp only [entryAddrsGo, Bool.true_and, hA, if_false] at h
      cases haf : addrFromAttr family plen idx f a with
      | ok o =>
        cases o with
        | some r =>
          rcases addrFromAttr_some haf with ⟨hty, _, _⟩
          rcases hty with hty | hty
          · simp [hty] at hA
          · exact absurd hty (hno a (List.mem_cons_self a rest))
        | none =>
          rw [haf] at h
          exact ih acc res (fun b hb => hno b (List.mem_cons_of_mem a hb)) h
      | decodeErr => rw [haf] at h; cases h
      | panicked => rw [haf] at h; cases h
      | outOfFuel => rw [haf] at h; cases h

lemma entryAddrsGo_p2p_filter {family plen idx : Nat} {f : Ip → Bool} :
    ∀ attrs (acc : List NetRec),
      entryAddrsGo family plen idx f true attrs acc
        = entryAddrsGo family plen idx f true
            (attrs.filter (fun a => !(a.ty == IFA_ADDRESS))) acc := by
  intro attrs
  induction attrs with
  | nil => intro acc; rfl
  | cons a rest ih =>
    intro acc
    by_cases hA : (a.ty == IFA_ADDRESS) = true
    · have hfilter : (a :: rest).filter (fun a => !(a.ty == IFA_ADDRESS))
          = rest.filter (fun a => !(a.ty == IFA_ADDRESS)) := by
        simp [List.filter, hA]
      rw [hfilter]
      simp only [entryAddrsGo, Bool.true_and, hA, if_true]
      exact ih acc
    · have hfilter : (a :: rest).filter (fun a => !(a.ty == IFA_ADDRESS))
          = a :: rest.filter (fun a => !(a.ty == IFA_ADDRESS)) := by
        simp [List.filter, hA]
      rw [hfilter]
      simp only [entryAddrsGo, Bool.true_and, hA, if_false]
      cases haf : addrFromAttr family plen idx f a with
      | ok o =>
        cases o with
        | some r => exact ih (acc ++ [r])
        | none => exact ih acc
      | decodeErr => rfl
      | panicked => rfl
      | outOfFuel => rfl

/-- C6: for a decoded `NEWADDR` entry, an `IFA_LOCAL` attribute among
the entry's attributes suppresses the entry's `IFA_ADDRESS` attributes
(per entry: processing equals processing with those attributes removed);
a point-to-point entry with exactly one `IFA_LOCAL` attribute yields the
local address exactly once; and without `IFA_LOCAL` the `IFA_ADDRESS`
attribute contributes the address. -/
theorem c6_point_to_point_suppression :
    (∀ family plen idx (f : Ip → Bool) attrs (acc : List NetRec),
        entryAddrsGo family plen idx f true attrs acc
          = entryAddrsGo family plen idx f true
              (attrs.filter (fun a => !(a.ty == IFA_ADDRESS))) acc) ∧
      (∀ plen idx (f : Ip → Bool) attrs res a0, a0.ty = IFA_LOCAL →
        attrs.filter (fun a => a.ty == IFA_LOCAL) = [a0] →
        4 ≤ a0.vbuf.length → f (Ip.v4 (a0.vbuf.take 4)) = true → plen ≤ 32 →
        entryAddrs AF_INET plen idx f attrs = .ok res →
        res = [⟨idx, Ip.v4 (a0.vbuf.take 4), plen⟩]) ∧
      (∀ plen idx (f : Ip → Bool) (v : Bytes), 4 ≤ v.length →
        f (Ip.v4 (v.take 4)) = true → plen ≤ 32 →
        entryAddrs AF_INET plen idx f [⟨IFA_ADDRESS, v⟩]
          = .ok [⟨idx, Ip.v4 (v.take 4), plen⟩]) := by
  refine ⟨fun family plen idx f attrs acc => entryAddrsGo_p2p_filter attrs acc, ?_, ?_⟩
  · intro plen idx f attrs res a0 hty hfilter hlen hf hplen h
    have hlocal : hasLocalAttr attrs = true := by
      have : a0 ∈ attrs.filter (fun a => a.ty == IFA_LOCAL) := by
        rw [hfilter]; exact List.mem_singleton.2 rfl
      have hmem := List.mem_of_mem_filter this
      simp only [hasLocalAttr, List.any_eq_true]
      exact ⟨a0, hmem, by simp [hty]⟩
    rw [entryAddrs, hlocal] at h
    clear hlocal
    induction attrs generalizing res with
    | nil => simp at hfilter
    | cons a rest ih =>
      by_cases hA : (a.ty == IFA_ADDRESS) = true
      · have hAL : ¬(a.ty == IFA_LOCAL) = true := by
          simp only [beq_iff_eq] at hA ⊢
          simp [hA, IFA_ADDRESS, IFA_LOCAL]
        rw [List.filter_cons_of_neg (by simpa using hAL)] at hfilter
        simp only [entryAddrsGo, Bool.true_and, hA, if_true] at h
        exact ih res hfilter h
      · simp only [entryAddrsGo, Bool.true_and, hA, if_false] at h
        by_cases hL : (a.ty == IFA_LOCAL) = true
        · rw [List.filter_cons_of_pos (by simpa using hL)] at hfilter
          have ha0 : a = a0 ∧ rest.filter (fun a => a.ty == IFA_LOCAL) = [] := by
            have := List.cons_eq_cons.1 hfilter
            exact ⟨this.1, this.2⟩
          rcases ha0 with ⟨rfl, hrest⟩
          have haf : addrFromAttr AF_INET plen idx f a = .ok (some ⟨idx, Ip.v4 (a.vbuf.take 4), plen⟩) := by
            simp only [addrFromAttr, AF_INET, ifNetTryFromWithFilter, ifNetTryFrom, beq_self_eq_true,
              if_true, hty, hf]
            rw [if_neg (by omega), if_pos (by simp [hty, IFA_LOCAL, IFA_ADDRESS]),
              if_neg (by simp [hf]), if_pos hplen]
          rw [haf] at h
          have hnol : ∀ b ∈ rest, b.ty ≠ IFA_LOCAL := by
            intro b hb
            intro hbl
            have : b ∈ rest.filter (fun a => a.ty == IFA_LOCAL) :=
              List.mem_filter.2 ⟨hb, by simp [hbl]⟩
            rw [hrest] at this
            cases this
          have := entryAddrsGo_no_local rest _ res hnol h
          simpa using this
        · rw [List.filter_cons_of_neg (by simpa using hL)] at hfilter
          cases haf : addrFromAttr AF_INET plen idx f a with
          | ok o =>
            cases o with
            | some r =>
              rcases addrFromAttr_some haf with ⟨hty2, _, _⟩
              rcases hty2 with h2 | h2
              · simp [h2, IFA_ADDRESS] at hA
              · simp [h2, IFA_LOCAL] at hL
            | none =>
              rw [haf] at h
              exact ih res hfilter h
          | decodeErr => rw [haf] at h; cases h
          | panicked => rw [haf] at h; cases h
          | outOfFuel => rw [haf] at h; cases h
  · intro plen idx f v hlen hf hplen
    have hnolocal : hasLocalAttr [⟨IFA_ADDRESS, v⟩] = false := by
      simp [hasLocalAttr, IFA_ADDRESS, IFA_LOCAL]
    rw [entryAddrs, hnolocal]
    simp only [entryAddrsGo, Bool.false_and, if_false]
    have haf : addrFromAttr AF_INET plen idx f ⟨IFA_ADDRESS, v⟩
        = .ok (some ⟨idx, Ip.v4 (v.take 4), plen⟩) := by
      simp only [addrFromAttr, AF_INET, ifNetTryFromWithFilter, ifNetTryFrom, beq_self_eq_true,
        if_true]
      rw [if_neg (by omega), if_pos (by simp), if_neg (by simp [hf]), if_pos hplen]
    rw [haf]
    rfl

/-- C6 witness: a point-to-point entry (one `IFA_LOCAL`, one
`IFA_ADDRESS`) yields exactly the local address once, and an entry
without `IFA_LOCAL` yields the `IFA_ADDRESS` address. -/
theorem c6_point_to_point_suppression_witness :
    entryAddrsGo AF_INET 24 3 (fun _ => true) true
        [⟨IFA_LOCAL, [192, 168, 0, 1]⟩, ⟨IFA_ADDRESS, [192, 168, 0, 2]⟩] []
      = entryAddrsGo AF_INET 24 3 (fun _ => true) true
        (([⟨IFA_LOCAL, [192, 168, 0, 1]⟩, ⟨IFA_ADDRESS, [192, 168, 0, 2]⟩] : List AddrAttr).filter
          (fun a => !(a.ty == IFA_ADDRESS))) [] ∧
      ([⟨3, Ip.v4 (List.take 4 [192, 168, 0, 1]), 24⟩] : List NetRec)
        = [⟨3, Ip.v4 (List.take 4 [192, 168, 0, 1]), 24⟩] ∧
      entryAddrs AF_INET 24 3 (fun _ => true) [⟨IFA_ADDRESS, [192, 168, 0, 2]⟩]
        = .ok [⟨3, Ip.v4 (List.take 4 [192, 168, 0, 2]), 24⟩] := by
  refine ⟨c6_point_to_point_suppression.1 AF_INET 24 3 _ _ _, ?_, ?_⟩
  · exact c6_point_to_point_suppression.2.1 24 3 (fun _ => true)
      [⟨IFA_LOCAL, [192, 168, 0, 1]⟩, ⟨IFA_ADDRESS, [192, 168, 0, 2]⟩]
      [⟨3, Ip.v4 (List.take 4 [192, 168, 0, 1]), 24⟩] ⟨IFA_LOCAL, [192, 168, 0, 1]⟩
      rfl (by decide) (by decide) (by decide) (by decide) (by decide)
  · exact c6_point_to_point_suppression.2.2 24 3 (fun _ => true) [192, 168, 0, 2]
      (by decide) (by decide) (by decide)

lemma entryAddrsGo_mem {family plen idx : Nat} {f : Ip → Bool} {p2p : Bool} :
    ∀ attrs (acc res : List NetRec),
      entryAddrsGo family plen idx f p2p attrs acc = .ok res →
      ∀ x ∈ res, x ∈ acc ∨ f x.addr = true := by
  intro attrs
  induction attrs with
  | nil => intro acc res h x hx; cases h; exact Or.inl hx
  | cons a rest ih =>
    intro acc res h x hx
    by_cases hc : (p2p && a.ty == IFA_ADDRESS) = true
    · simp only [entryAddrsGo, hc, if_true] at h
      exact ih acc res h x hx
    · simp only [entryAddrsGo, hc, if_false] at h
      cases haf : addrFromAttr family plen idx f a with
      | ok o =>
        cases o with
        | some r =>
          rw [haf] at h
          rcases ih _ _ h x hx with hmem | hgood
          · rcases List.mem_append.1 hmem with hacc | hr
            · exact Or.inl hacc
            · rcases addrFromAttr_some haf with ⟨_, hf, _⟩
              rw [List.mem_singleton.1 hr]
              exact Or.inr hf
          · exact Or.inr hgood
        | none =>
          rw [haf] at h
          exact ih _ _ h x hx
      | decodeErr => rw [haf] at h; cases h
      | panicked => rw [haf] at h; cases h
      | outOfFuel => rw [haf] at h; cases h

lemma netlinkAddrWalk_mem {pid family ifi : Nat} {f : Ip → Bool} :
    ∀ fuel received acc out,
      netlinkAddrWalk fuel pid family ifi f received acc = .ok out →
      ∀ x ∈ out.1, x ∈ acc ∨ f x.addr = true := by
  intro fuel
  induction fuel with
  | zero => intro received acc out h; cases h
  | succ n ih =>
    intro received acc out h x hx
    simp only [netlinkAddrWalk] at h
    split at h
    · cases h; exact Or.inl hx
    · split at h
      · cases h
      · split at h
        · cases h
        · split at h
          · cases h; exact Or.inl hx
          · split at h
            · cases h
            · split at h
              · split at h
                · cases h
                · split at h
                  · split at h
                    · rcases ih _ _ _ h x hx with hmem | hgood
                      · rcases List.mem_append.1 hmem with hacc | hrec
                        · exact Or.inl hacc
                        · rcases entryAddrsGo_mem _ _ _ (by assumption) x hrec with h0 | hgood
                          · cases h0
                          · exact Or.inr hgood
                      · exact Or.inr hgood
                    · cases h
                    · cases h
                    · cases h
                  · cases h
                  · cases h
                  · cases h
              · exact ih _ _ _ h x hx

lemma localIpFilter_excludes {a : Ip} (h : localIpFilter a = true) :
    ipIsLinkLocal a = false ∧ ipIsLoopback a = false := by
  cases a with
  | v4 o =>
    simp only [localIpFilter, Bool.not_eq_true', Bool.or_eq_false_iff] at h
    exact ⟨h.2, h.1⟩
  | v6 o =>
    simp only [localIpFilter, Bool.not_eq_true', Bool.or_eq_false_iff] at h
    exact ⟨h.2, h.1⟩

/-- C10: every address produced by the Linux address walk under a filter
at least as strong as `local_ip_filter` — which is exactly how
`local_addrs`, `local_*_addrs_by_filter` (caller predicate conjoined
with `local_ip_filter`) and the best-local-address query invoke it — is
neither link-local (IPv4 169.254/16, IPv6 fe80::/10 unicast) nor
loopback, regardless of the caller predicate. -/
theorem c10_local_addrs_exclude_link_local :
    ∀ fuel pid family ifi (g : Ip → Bool) received res d,
      (∀ a, g a = true → localIpFilter a = true) →
      netlinkAddrWalk fuel pid family ifi g received [] = .ok (res, d) →
      ∀ x ∈ res, ipIsLinkLocal x.addr = false ∧ ipIsLoopback x.addr = false := by
  intro fuel pid family ifi g received res d hg h x hx
  rcases netlinkAddrWalk_mem fuel received [] (res, d) h x hx with h0 | hgood
  · cases h0
  · exact localIpFilter_excludes (hg _ hgood)

/-- A receive buffer with one `RTM_NEWADDR` message: family `AF_INET`,
prefix length 24, interface 3, one `IFA_ADDRESS` attribute `10.0.0.1`. -/
def c10AddrMsg : Bytes :=
  [32, 0, 0, 0, 20, 0, 0, 0, 1, 0, 0, 0, 0, 0, 0, 0] ++
    [2, 24, 0, 0, 3, 0, 0, 0] ++ [8, 0, 1, 0, 10, 0, 0, 1]

/-- C10 witness: the exclusion applied to a concrete decoded address. -/
theorem c10_local_addrs_exclude_link_local_witness :
    ipIsLinkLocal (⟨3, Ip.v4 [10, 0, 0, 1], 24⟩ : NetRec).addr = false ∧
      ipIsLoopback (⟨3, Ip.v4 [10, 0, 0, 1], 24⟩ : NetRec).addr = false := by
  exact c10_local_addrs_exclude_link_local 5 0 AF_INET 0 localIpFilter c10AddrMsg
    [⟨3, Ip.v4 [10, 0, 0, 1], 24⟩] false (fun _ h => h) (by decide)
    ⟨3, Ip.v4 [10, 0, 0, 1], 24⟩ (by decide)

end Getifs
